import Mathlib

/-!
# Verification of the notice-api validation / sanitization / upload pipeline

Shallow embedding of `src/notice-api/server.js`: the JavaScript scalar values
that flow through the request handlers are modelled by `JSVal` (strings are
`List Char`, numbers are `JSNum` with an explicit NaN), the validators
(`validateTitle`, `validateContent`, `validateId`), the sanitizer pipeline,
the upload guard (extension filter, stored-filename generation, post-write
re-check) and each endpoint handler are translated function by function.
A handler is modelled as a function producing an `Outcome`: either
`reject msg` (the handler returned `bad(res, msg)` before any storage call)
or `store call` (the handler reached its parameterized query, whose
parameters are recorded in `call`).  The MySQL engine is an external
collaborator; the semantics of the concrete parameterized statements that the
handlers issue (`SELECT ... ORDER BY created_at DESC LIMIT ? OFFSET ?`,
`COUNT(*)`, `INSERT`, `UPDATE ... WHERE id=?`, `DELETE ... WHERE id IN`) is
given by the `exec`/`apply` functions over a table modelled as `List Row`.
-/

set_option maxRecDepth 10000

namespace NoticeApi

/-- A JavaScript number as produced by `Number(...)` coercion: either NaN or a
numeric value.  Values are modelled as integers; every concrete number
appearing in the claims (ids, page/size bounds, lengths) is an integer. -/
inductive JSNum
  | nan
  | val (x : Int)
deriving DecidableEq

/-- A JavaScript value as delivered by `express.json()` body parsing: a JSON
string, number, boolean, null, array, or `undefined` for an absent field. -/
inductive JSVal
  | vstr (s : List Char)
  | vnum (n : JSNum)
  | vbool (b : Bool)
  | vnull
  | vundefined
  | varr (l : List JSVal)

/-- JavaScript truthiness of a number: `0` and `NaN` are falsy. -/
def jsTruthyNum : JSNum → Bool
  | .nan => false
  | .val x => decide (x ≠ 0)

/-- JavaScript `n <= k` for a coerced number `n` and integer literal `k`:
any comparison against NaN is false. -/
def jsLe : JSNum → Int → Bool
  | .nan, _ => false
  | .val x, k => decide (x ≤ k)

/-- JavaScript `n > k` for a coerced number `n` and integer literal `k`:
any comparison against NaN is false. -/
def jsGt : JSNum → Int → Bool
  | .nan, _ => false
  | .val x, k => decide (k < x)

/-- JavaScript truthiness: empty string, `0`, `NaN`, `null`, `undefined` and
`false` are falsy; every array (including `[]`) is truthy. -/
def truthy : JSVal → Bool
  | .vstr s => decide (s ≠ [])
  | .vnum n => jsTruthyNum n
  | .vbool b => b
  | .vnull => false
  | .vundefined => false
  | .varr _ => true

/-- The JavaScript property access `v.length`: defined for strings and arrays,
`undefined` for the other JSON values (numbers, booleans, null). -/
def lengthProp : JSVal → JSVal
  | .vstr s => .vnum (.val s.length)
  | .varr l => .vnum (.val l.length)
  | _ => .vundefined

/-- The JavaScript comparison `v > k` for a value `v` that is the result of a
`.length` access (a number or `undefined`): `undefined > k` and `NaN > k`
are false. -/
def lengthGt (v : JSVal) (k : Int) : Bool :=
  match v with
  | .vnum n => jsGt n k
  | _ => false

/-! ## Error messages (the literal strings passed to `bad(res, msg)`) -/

/-- The message of `validateTitle` for a falsy title. -/
def msgTitleRequired : List Char := ("Title is required").toList

/-- The message of `validateTitle` for an over-long title. -/
def msgTitleTooLong : List Char := ("Title is too long (max 255 characters)").toList

/-- The message of `validateContent` for a falsy content. -/
def msgContentRequired : List Char := ("Content is required").toList

/-- The message of `validateContent` for an over-long content. -/
def msgContentTooLong : List Char := ("Content is too long (max 50000 characters)").toList

/-- The message of `validateId`. -/
def msgInvalidId : List Char := ("Invalid ID").toList

/-- The message for out-of-bounds pagination parameters in the list handler. -/
def msgPageSize : List Char := ("page/size invalid").toList

/-- The message for an unknown `status` filter value in the list handler. -/
def msgInvalidStatus : List Char := ("invalid status").toList

/-- The batch-delete message for a missing, non-array or empty `ids` body field. -/
def msgIdsRequired : List Char := ("ids required").toList

/-- The batch-delete message for a non-empty `ids` array whose filtered form is empty. -/
def msgIdsInvalid : List Char := ("ids invalid").toList

/-- The batch-delete message for more than 100 filtered ids. -/
def msgTooManyIds : List Char := ("Too many IDs in batch operation (max 100)").toList

/-! ## Validators (`server.js` lines 30-46) -/

/-- `validateTitle(title)`: `if (!title) return 'Title is required';
if (title.length > 255) return 'Title is too long (max 255 characters)';
return null;`.  The argument is the (already sanitized) JS value. -/
def validateTitle (title : JSVal) : Option (List Char) :=
  if truthy title = false then some msgTitleRequired
  else if lengthGt (lengthProp title) 255 then some msgTitleTooLong
  else none

/-- `validateContent(content)`: same shape as `validateTitle` with the
50000-character bound. -/
def validateContent (content : JSVal) : Option (List Char) :=
  if truthy content = false then some msgContentRequired
  else if lengthGt (lengthProp content) 50000 then some msgContentTooLong
  else none

/-- `validateId(id)`: `const numId = Number(id); if (!numId || numId <= 0)
return 'Invalid ID'; return null;`.  The argument is the `Number(...)`
coercion of the raw route parameter (a non-numeric parameter coerces to
`JSNum.nan`). -/
def validateId (id : JSNum) : Option (List Char) :=
  if jsTruthyNum id = false || jsLe id 0 then some msgInvalidId else none

/-! ## Sanitizer (`server.js` lines 25-28) -/

/-- Whitespace recognized by `String.prototype.trim` (the ASCII part; the
exotic Unicode space code points do not occur in any input considered). -/
def isWs (c : Char) : Bool :=
  c = ' ' || c = '\t' || c = '\n' || c = '\r'

/-- JavaScript `s.trim()`: drop whitespace from both ends. -/
def trimL (s : List Char) : List Char :=
  ((s.dropWhile isWs).reverse.dropWhile isWs).reverse

/-- Modelled from the spec: the markup-neutralization pass of the Sanitizer
(the external `xss` npm library, whose code is not under `src/`).  The spec
says it strips or escapes the executable and dangerous HTML constructs while
preserving benign formatting markup; it is therefore the identity on
markup-free text,
and every concrete string evaluated through it below is markup-free (letters,
digits and spaces only).  Handlers are additionally parametrized over an
arbitrary pass `xssF`, so the universally quantified theorems do not depend
on this model. -/
def xssModel : List Char → List Char := fun s => s

/-- `sanitizeInput(input)`: non-strings pass through unchanged, strings are
trimmed and run through the xss pass (`xss(input.trim())`). -/
def sanitizeInput (xssF : List Char → List Char) : JSVal → JSVal
  | .vstr s => .vstr (xssF (trimL s))
  | v => v

/-! ## JavaScript `String(...)` coercion, used for `content_delta` -/

/-- JavaScript `String(v)` for JSON values: strings unchanged, numbers in
decimal, `"true"`/`"false"`, `"null"`, `"undefined"`; an array joins the
coercions of its elements with commas, rendering null/undefined elements as
empty. -/
def jsToStr : JSVal → List Char
  | .vstr s => s
  | .vnum .nan => ("NaN").toList
  | .vnum (.val x) => (toString x).toList
  | .vbool true => ("true").toList
  | .vbool false => ("false").toList
  | .vnull => ("null").toList
  | .vundefined => ("undefined").toList
  | .varr l => jsToStrList l
where
  /-- Comma-joined element coercions of `Array.prototype.toString`. -/
  jsToStrList : List JSVal → List Char
  | [] => []
  | [v] => jsToStrElem v
  | v :: rest => jsToStrElem v ++ ',' :: jsToStrList rest
  /-- A single array element under `join`: null and undefined render empty. -/
  jsToStrElem : JSVal → List Char
  | .vnull => []
  | .vundefined => []
  | v => jsToStr v

/-- The handler expression `req.body.content_delta ?
String(req.body.content_delta) : null`. -/
def deltaOf (d : JSVal) : Option (List Char) :=
  if truthy d then some (jsToStr d) else none

/-! ## Upload guard (`server.js` lines 60-125) -/

/-- `pat.isSub s`: does `pat` occur as a contiguous substring of `s`?  This is
what an unanchored regular expression `test` performs. -/
def isSub (pat : List Char) : List Char → Bool
  | [] => pat.isEmpty
  | c :: rest => pat.isPrefixOf (c :: rest) || isSub pat rest

/-- The test `allowedFileTypes.test(ext)` with
`allowedFileTypes = /jpeg|jpg|png|gif/`: the regular expression has no
anchors, so it succeeds whenever one of the four alternatives occurs
anywhere inside `ext` as a substring. -/
def allowedTest (ext : List Char) : Bool :=
  isSub (("jpeg").toList) ext || isSub (("jpg").toList) ext ||
  isSub (("png").toList) ext || isSub (("gif").toList) ext

/-- ASCII lower-casing of one character, as `String.prototype.toLowerCase`
acts on ASCII text (code points 65-90 shift to 97-122, all else unchanged). -/
def lowerChar (c : Char) : Char :=
  if 65 ≤ c.toNat ∧ c.toNat ≤ 90 then Char.ofNat (c.toNat + 32) else c

/-- `s.toLowerCase()` on ASCII text. -/
def lowerStr (s : List Char) : List Char := s.map lowerChar

/-- Helper of `extnameL` below: given the reversed basename `r`, return the
extension — empty when `r` has no dot (`takeWhile` swallows everything) or
when the only dot is the basename's leading character (a hidden file such as
`.bashrc`), else the dot together with the characters after it. -/
def extAux (r : List Char) : List Char :=
  if (r.takeWhile (fun c => decide (c ≠ '.'))).length = r.length then []
  else if (r.takeWhile (fun c => decide (c ≠ '.'))).length + 1 = r.length then []
  else '.' :: (r.takeWhile (fun c => decide (c ≠ '.'))).reverse

/-- `path.extname(p)`: the extension of the basename of `p`, i.e. the suffix
starting at the last `'.'` of the part after the last `'/'`; empty when the
basename has no dot or when its only dot is its leading character (hidden
files).  (Node additionally maps the all-dots names `".."` etc. to the empty
extension; that corner is not modelled — such extensions fail `allowedTest`
on both sides anyway, and the source applies this same function to both the
original and the generated filename.) -/
def extnameL (p : List Char) : List Char :=
  extAux (p.reverse.takeWhile (fun c => decide (c ≠ '/')))

/-- The `fileFilter` (and identical `storage.destination`) check:
`allowedFileTypes.test(path.extname(file.originalname).toLowerCase())`.
`true` means the upload is accepted and proceeds to be written; `false` means
the request is rejected before anything is written. -/
def fileFilterOk (originalname : List Char) : Bool :=
  allowedTest (lowerStr (extnameL originalname))

/-- `storage.filename`: the stored name
`Date.now() + '_' + Math.random().toString(16).slice(2) + ext` with
`ext = path.extname(file.originalname).toLowerCase()`.  `ts` stands for the
decimal millisecond timestamp and `rand` for the random hex token; both are
made of digits `0-9` and letters `a-f` only. -/
def storedFilename (ts rand originalname : List Char) : List Char :=
  ts ++ '_' :: (rand ++ lowerStr (extnameL originalname))

/-- The post-write re-check in the upload handler:
`allowedFileTypes.test(path.extname(req.file.filename).toLowerCase())`.
When this returns `false` the handler deletes the just-written artifact. -/
def recheckOk (filename : List Char) : Bool :=
  allowedTest (lowerStr (extnameL filename))

/-- The allow-list check as the claims state it: the extension of the original
filename, taken case-insensitively, is (exactly) one of `jpeg`, `jpg`, `png`,
`gif`.  This follows the claim wording, for comparison against the
`fileFilterOk` of the source. -/
def specAllowListOk (originalname : List Char) : Bool :=
  lowerStr (extnameL originalname) = (".jpeg").toList ||
  lowerStr (extnameL originalname) = (".jpg").toList ||
  lowerStr (extnameL originalname) = (".png").toList ||
  lowerStr (extnameL originalname) = (".gif").toList

/-! ## The notice table -/

/-- The two lifecycle states of a notice. -/
inductive Status
  | draft
  | published
deriving DecidableEq

/-- One row of the `notice` table.  `title` and `content` hold whatever JS
value the INSERT/UPDATE parameter carried; `publish_time` and `created_at`
are engine timestamps, modelled as integers (`none` = SQL NULL).  The
engine-managed `updated_at` column plays no part in any claim and is not
modelled. -/
structure Row where
  id : Int
  title : JSVal
  content : JSVal
  content_delta : Option (List Char)
  status : Status
  publish_time : Option Int
  created_at : Int

/-- The result of a request handler, up to its first side effect: either the
handler returned `bad(res, msg)` — in which case, by the structure of the
source, no storage call of any kind has been issued — or it reached its
parameterized storage statement, whose parameters are `call`. -/
inductive Outcome (σ : Type)
  | reject (msg : List Char)
  | store (call : σ)

/-- The final JSON response of an endpoint: `bad` is the 400 envelope
`{code:1, msg}`, `okRes` is the success envelope `{code:0, msg:'ok', data}`,
`dbErr` is the 500 path taken when the storage engine rejects the issued
query (e.g. a NaN bound parameter). -/
inductive Res (α : Type)
  | bad (msg : List Char)
  | okRes (data : α)
  | dbErr

/-! ## List endpoint (`GET /api/notices`, `server.js` lines 147-183) -/

/-- JavaScript subtraction `n - k` (NaN propagates). -/
def jsSub : JSNum → Int → JSNum
  | .nan, _ => .nan
  | .val x, k => .val (x - k)

/-- JavaScript multiplication (NaN propagates). -/
def jsMul : JSNum → JSNum → JSNum
  | .nan, _ => .nan
  | .val _, .nan => .nan
  | .val a, .val b => .val (a * b)

/-- The parameters of the list handler's SELECT/COUNT pair: the shared
`WHERE status=?` filter (absent when no status was given) and the LIMIT and
OFFSET bound values. -/
structure ListCall where
  filt : Option Status
  limit : JSNum
  offset : JSNum

/-- The validation and query-building part of `GET /api/notices`.  `page` and
`size` are the values `Number(req.query.page || 1)` and
`Number(req.query.size || 10)`; `statusQ` is the trimmed `status` query
string (empty when absent).  Source order: first
`if (page <= 0 || size <= 0 || size > 100) return bad(res, 'page/size invalid')`,
then the status whitelist check, then `offset = (page - 1) * size` and the
two queries sharing the same WHERE clause. -/
def listHandler (page size : JSNum) (statusQ : List Char) : Outcome ListCall :=
  if jsLe page 0 || jsLe size 0 || jsGt size 100 then .reject msgPageSize
  else if decide (statusQ ≠ []) &&
      !(statusQ = ("draft").toList || statusQ = ("published").toList) then
    .reject msgInvalidStatus
  else
    .store ⟨if statusQ = [] then none
            else if statusQ = ("draft").toList then some .draft
            else some .published,
           size, jsMul (jsSub page 1) size⟩

/-- The rows matching the handler's WHERE clause, in table order. -/
def filterStatus (filt : Option Status) (tbl : List Row) : List Row :=
  match filt with
  | none => tbl
  | some st => tbl.filter (fun r => decide (r.status = st))

/-- `ORDER BY created_at DESC` as a relation on rows. -/
def createdDesc (a b : Row) : Prop := b.created_at ≤ a.created_at

instance : DecidableRel createdDesc :=
  fun a b => inferInstanceAs (Decidable (b.created_at ≤ a.created_at))

/-- The engine's result order for
`SELECT ... ORDER BY created_at DESC`: some sorting of the filtered rows by
descending `created_at` (the engine's order among ties is unspecified; the
model fixes insertion sort). -/
def sortDesc (l : List Row) : List Row := List.insertionSort createdDesc l

/-- Engine semantics of the SELECT with `LIMIT ? OFFSET ?`: defined (`some`)
only for non-negative numeric bounds — a NaN or negative bound makes the
engine reject the statement, surfacing as the 500 path (`none`). -/
def execSelect (c : ListCall) (tbl : List Row) : Option (List Row) :=
  match c.limit, c.offset with
  | .val l, .val o =>
      if 0 ≤ l ∧ 0 ≤ o then
        some (((sortDesc (filterStatus c.filt tbl)).drop o.toNat).take l.toNat)
      else none
  | _, _ => none

/-- Engine semantics of `SELECT COUNT(*)` under the same WHERE clause. -/
def execCount (c : ListCall) (tbl : List Row) : Nat :=
  (filterStatus c.filt tbl).length

/-- The success payload of the list endpoint:
`{ list: rows, total: cnt[0].total, page, size }`. -/
structure ListResp where
  list : List Row
  total : Nat
  page : JSNum
  size : JSNum

/-- The whole `GET /api/notices` endpoint against a table state. -/
def listEndpoint (page size : JSNum) (statusQ : List Char) (tbl : List Row) :
    Res ListResp :=
  match listHandler page size statusQ with
  | .reject m => .bad m
  | .store c =>
      match execSelect c tbl with
      | none => .dbErr
      | some rows => .okRes ⟨rows, execCount c tbl, page, size⟩

/-! ## Create endpoint (`POST /api/notices`, `server.js` lines 208-233) -/

/-- The INSERT parameters `[title, content, content_delta]` (the status column
is the literal `'draft'` in the statement text). -/
structure CreateCall where
  title : JSVal
  content : JSVal
  content_delta : Option (List Char)

/-- `POST /api/notices`: sanitize title and content, coerce `content_delta`,
validate title then content, and only then issue the INSERT. -/
def createHandler (xssF : List Char → List Char)
    (titleIn contentIn deltaIn : JSVal) : Outcome CreateCall :=
  let title := sanitizeInput xssF titleIn
  let content := sanitizeInput xssF contentIn
  let cdelta := deltaOf deltaIn
  match validateTitle title with
  | some m => .reject m
  | none =>
      match validateContent content with
      | some m => .reject m
      | none => .store ⟨title, content, cdelta⟩

/-- Engine semantics of the INSERT: append a fresh row with the generated id,
status `'draft'` and NULL `publish_time`. -/
def applyInsert (c : CreateCall) (newId now : Int) (tbl : List Row) : List Row :=
  tbl ++ [⟨newId, c.title, c.content, c.content_delta, .draft, none, now⟩]

/-! ## Id-addressed endpoints (`server.js` lines 186-302) -/

/-- The integer behind a coerced id that passed `validateId` (such an id is
always `JSNum.val`). -/
def idOf : JSNum → Int
  | .nan => 0
  | .val x => x

/-- `GET /api/notices/:id`: validate the id, then issue the SELECT-by-id. -/
def getHandler (idv : JSNum) : Outcome Int :=
  match validateId idv with
  | some m => .reject m
  | none => .store (idOf idv)

/-- The UPDATE parameters `[title, content, content_delta, id]`. -/
structure UpdateCall where
  id : Int
  title : JSVal
  content : JSVal
  content_delta : Option (List Char)

/-- `PUT /api/notices/:id`: validate the id first, then sanitize and validate
the body exactly as `createHandler` does, then issue the UPDATE. -/
def updateHandler (xssF : List Char → List Char) (idv : JSNum)
    (titleIn contentIn deltaIn : JSVal) : Outcome UpdateCall :=
  match validateId idv with
  | some m => .reject m
  | none =>
      let title := sanitizeInput xssF titleIn
      let content := sanitizeInput xssF contentIn
      let cdelta := deltaOf deltaIn
      match validateTitle title with
      | some m => .reject m
      | none =>
          match validateContent content with
          | some m => .reject m
          | none => .store ⟨idOf idv, title, content, cdelta⟩

/-- `PUT /api/notices/:id` responds `ok(res, true)` whenever the UPDATE was
issued, regardless of how many rows it affected. -/
def updateEndpoint (xssF : List Char → List Char) (idv : JSNum)
    (titleIn contentIn deltaIn : JSVal) : Res Bool :=
  match updateHandler xssF idv titleIn contentIn deltaIn with
  | .reject m => .bad m
  | .store _ => .okRes true

/-- Engine semantics of
`UPDATE notice SET title=?, content=?, content_delta=? WHERE id=?`. -/
def applyUpdate (c : UpdateCall) (tbl : List Row) : List Row :=
  tbl.map (fun r =>
    if r.id = c.id then
      { r with title := c.title, content := c.content,
               content_delta := c.content_delta }
    else r)

/-- `POST /api/notices/:id/publish`: validate the id, then issue the UPDATE
that stamps status and publish time. -/
def publishHandler (idv : JSNum) : Outcome Int :=
  match validateId idv with
  | some m => .reject m
  | none => .store (idOf idv)

/-- Engine semantics of
`UPDATE notice SET status='published', publish_time=NOW() WHERE id=?`
(`now` is the server time of the statement). -/
def applyPublish (id now : Int) (tbl : List Row) : List Row :=
  tbl.map (fun r =>
    if r.id = id then { r with status := .published, publish_time := some now }
    else r)

/-- `DELETE /api/notices/:id`: validate the id, then issue the DELETE. -/
def deleteHandler (idv : JSNum) : Outcome Int :=
  match validateId idv with
  | some m => .reject m
  | none => .store (idOf idv)

/-- Engine semantics of `DELETE FROM notice WHERE id=?`. -/
def applyDeleteOne (id : Int) (tbl : List Row) : List Row :=
  tbl.filter (fun r => decide (r.id ≠ id))

/-! ## Batch delete (`POST /api/notices/batch_delete`, lines 305-324) -/

/-- `ids.map(n => Number(n)).filter(n => n > 0)`: each entry of the `ids`
array is coerced to a number (a non-numeric entry yields NaN) and kept only
when strictly positive — `NaN > 0` is false, so NaN entries are dropped. -/
def safeIds (ids : List JSNum) : List Int :=
  ids.filterMap (fun n =>
    match n with
    | .nan => none
    | .val x => if 0 < x then some x else none)

/-- `POST /api/notices/batch_delete`.  `ids` is the `Number(...)` coercion of
the entries of the body's `ids` array; the missing-field and non-array cases
of `req.body.ids` behave like the empty array here (both produce the
`'ids required'` rejection).  Source order: the empty/non-array check, the
empty-after-filtering check, the 100-cap check, then the DELETE. -/
def batchDeleteHandler (ids : List JSNum) : Outcome (List Int) :=
  if ids.length = 0 then .reject msgIdsRequired
  else if (safeIds ids).length = 0 then .reject msgIdsInvalid
  else if 100 < (safeIds ids).length then .reject msgTooManyIds
  else .store (safeIds ids)

/-- Engine semantics of `DELETE FROM notice WHERE id IN (...)`. -/
def applyBatchDelete (l : List Int) (tbl : List Row) : List Row :=
  tbl.filter (fun r => decide (r.id ∉ l))

/-! ## Small classifiers and concrete fixtures used by witnesses -/

/-- Is the JS value a string (`typeof v === 'string'`)? -/
def isStrV : JSVal → Bool
  | .vstr _ => true
  | _ => false

/-- Is the JS value an array (`Array.isArray(v)`)? -/
def isArrV : JSVal → Bool
  | .varr _ => true
  | _ => false

/-- A 256-character title consisting of two leading spaces and 254 letters:
its sanitized (trimmed) form has length 254 and passes `validateTitle`. -/
def padTitleStr : List Char := ' ' :: ' ' :: List.replicate 254 'a'

/-- A 256-character title of spaces only: its sanitized form is empty. -/
def spacesTitleStr : List Char := List.replicate 256 ' '

/-- A 256-element array supplied as the `title` body field. -/
def bigArr : JSVal := .varr (List.replicate 256 (.vnum (.val 1)))

/-- A concrete draft row. -/
def sampleDraft : Row :=
  ⟨1, .vstr (("t").toList), .vstr (("c").toList), none, .draft, none, 0⟩

/-- `sampleDraft` after `applyPublish 1 5`. -/
def samplePub : Row :=
  ⟨1, .vstr (("t").toList), .vstr (("c").toList), none, .published, some 5, 0⟩

/-- A concrete row created at time 1. -/
def rowT1 : Row :=
  ⟨1, .vstr (("u").toList), .vstr (("v").toList), none, .draft, none, 1⟩

/-- A concrete row created at time 2 (later than `rowT1`). -/
def rowT2 : Row :=
  ⟨2, .vstr (("w").toList), .vstr (("x").toList), none, .published, some 9, 2⟩

/-! ## Claim C1 -/

/-- C1: the upload filter does not implement the stated allow-list.  Because
`allowedFileTypes = /jpeg|jpg|png|gif/` has no anchors, `test` is a substring
search: the original filename `photo.xjpg`, whose extension `xjpg` is not one
of jpeg/jpg/png/gif, is nevertheless accepted by `fileFilter` (and so written
to the content directory), contradicting the claim's "only if" direction and
the source's own error message "Only jpeg, jpg, png, and gif files are
allowed."; a plain `.exe` is still rejected, as the claim's examples say. -/
theorem claimC1_filter_accepts_xjpg :
    fileFilterOk (("photo.xjpg").toList) = true ∧
    specAllowListOk (("photo.xjpg").toList) = false ∧
    fileFilterOk (("virus.exe").toList) = false := by
  refine ⟨?_, ?_, ?_⟩ <;> rfl

/-! ## Claim C4 -/

/-- C4: for every id that coerces to NaN (non-numeric) or to a number ≤ 0,
each of the four id-addressed handlers (get by id, update, publish, delete
one) rejects with "Invalid ID" and issues no storage call (`Outcome.reject`
is returned before the handler's parameterized query is reached); the update
endpoint's response is the 400 envelope with that message. -/
theorem claimC4_invalid_id_rejected (idv : JSNum)
    (xssF : List Char → List Char) (t c d : JSVal)
    (h : idv = .nan ∨ ∃ x : Int, idv = .val x ∧ x ≤ 0) :
    getHandler idv = .reject msgInvalidId ∧
    updateHandler xssF idv t c d = .reject msgInvalidId ∧
    updateEndpoint xssF idv t c d = .bad msgInvalidId ∧
    publishHandler idv = .reject msgInvalidId ∧
    deleteHandler idv = .reject msgInvalidId := by
  have hv : validateId idv = some msgInvalidId := by
    rcases h with h | ⟨x, rfl, hx⟩
    · subst h; rfl
    · simp [validateId, jsTruthyNum, jsLe, hx]
  refine ⟨?_, ?_, ?_, ?_, ?_⟩ <;>
    simp [getHandler, updateHandler, updateEndpoint, publishHandler,
      deleteHandler, hv]

/-- Witness for C4 at the concrete input `id = 0` (and arbitrary body). -/
theorem claimC4_witness :
    getHandler (.val 0) = .reject msgInvalidId ∧
    updateHandler xssModel (.val 0) (.vstr (("a").toList))
      (.vstr (("b").toList)) .vnull = .reject msgInvalidId ∧
    updateEndpoint xssModel (.val 0) (.vstr (("a").toList))
      (.vstr (("b").toList)) .vnull = .bad msgInvalidId ∧
    publishHandler (.val 0) = .reject msgInvalidId ∧
    deleteHandler (.val 0) = .reject msgInvalidId :=
  claimC4_invalid_id_rejected (.val 0) xssModel (.vstr (("a").toList))
    (.vstr (("b").toList)) .vnull (Or.inr ⟨0, rfl, le_refl 0⟩)

/-! ## Claim C2 -/

/-- C2 fails as stated: the handlers validate the *sanitized* title, not the
supplied one.  The 256-character title `padTitleStr` (two spaces then 254
letters) trims to 254 characters, so `POST /api/notices` and
`PUT /api/notices/:id` do not return the too-long error — they reach their
INSERT/UPDATE statements and a row is written; and the 256-space title trims
to empty, drawing the different error "Title is required". -/
theorem claimC2_counterexample :
    padTitleStr.length = 256 ∧
    createHandler xssModel (.vstr padTitleStr) (.vstr (("body").toList)) .vnull
      = .store ⟨.vstr (List.replicate 254 'a'), .vstr (("body").toList), none⟩ ∧
    updateHandler xssModel (.val 1) (.vstr padTitleStr)
      (.vstr (("body").toList)) .vnull
      = .store ⟨1, .vstr (List.replicate 254 'a'), .vstr (("body").toList), none⟩ ∧
    spacesTitleStr.length = 256 ∧
    createHandler xssModel (.vstr spacesTitleStr) (.vstr (("body").toList)) .vnull
      = .reject msgTitleRequired ∧
    msgTitleRequired ≠ msgTitleTooLong := by
  refine ⟨by decide, rfl, rfl, by decide, rfl, by decide⟩

/-- C2 amended: whenever the *sanitized* title is a string longer than 255
characters, both create and update return "Title is too long (max 255
characters)" and issue no storage call (the handlers return before their
INSERT/UPDATE statements), for any markup-neutralization pass `xssF`. -/
theorem claimC2_sanitized_too_long (xssF : List Char → List Char)
    (tIn cIn dIn : JSVal) (idv : JSNum) (s : List Char)
    (hs : sanitizeInput xssF tIn = .vstr s) (hlen : 255 < s.length)
    (hid : validateId idv = none) :
    createHandler xssF tIn cIn dIn = .reject msgTitleTooLong ∧
    updateHandler xssF idv tIn cIn dIn = .reject msgTitleTooLong ∧
    updateEndpoint xssF idv tIn cIn dIn = .bad msgTitleTooLong := by
  have hne : s ≠ [] := by
    intro h
    rw [h] at hlen
    simp at hlen
  have hv : validateTitle (sanitizeInput xssF tIn) = some msgTitleTooLong := by
    rw [hs]
    have h1 : truthy (.vstr s) = true := by simp [truthy, hne]
    have h2 : lengthGt (lengthProp (.vstr s)) 255 = true := by
      simp [lengthProp, lengthGt, jsGt]
      exact_mod_cast hlen
    simp [validateTitle, h1, h2]
  refine ⟨?_, ?_, ?_⟩ <;>
    simp [createHandler, updateHandler, updateEndpoint, hid, hv]

/-- Witness for the amended C2 at a concrete 256-letter title and id 3. -/
theorem claimC2_witness :
    createHandler xssModel (.vstr (List.replicate 256 'b'))
      (.vstr (("body").toList)) .vnull = .reject msgTitleTooLong ∧
    updateHandler xssModel (.val 3) (.vstr (List.replicate 256 'b'))
      (.vstr (("body").toList)) .vnull = .reject msgTitleTooLong ∧
    updateEndpoint xssModel (.val 3) (.vstr (List.replicate 256 'b'))
      (.vstr (("body").toList)) .vnull = .bad msgTitleTooLong :=
  claimC2_sanitized_too_long xssModel (.vstr (List.replicate 256 'b'))
    (.vstr (("body").toList)) .vnull (.val 3) (List.replicate 256 'b')
    rfl (by simp) rfl

/-! ## Claim C3 -/

/-- C3 fails as stated: a non-numeric `page` coerces to NaN, which is "not
greater than 0", yet `NaN <= 0` is false in JavaScript, so the guard
`page <= 0 || size <= 0 || size > 100` does not fire: the handler reaches its
storage queries (with a NaN OFFSET bound, which the engine then rejects — the
500 path), instead of failing with "page/size invalid". -/
theorem claimC3_counterexample :
    jsGt JSNum.nan 0 = false ∧
    listHandler .nan (.val 10) [] = .store ⟨none, .val 10, .nan⟩ ∧
    listEndpoint .nan (.val 10) [] [] = .dbErr := by
  refine ⟨rfl, rfl, rfl⟩

/-- C3 amended: for numeric (non-NaN) `page` and `size` the guard is exact —
the request is rejected with "page/size invalid" before any storage call iff
`page ≤ 0`, `size ≤ 0` or `size > 100` (so size 101 is rejected and size 100
accepted); but a `page` that coerces to NaN slips past the guard whenever
`size` alone passes. -/
theorem claimC3_pagination_guard (p s : Int) (statusQ : List Char) :
    ((p ≤ 0 ∨ s ≤ 0 ∨ 100 < s) ↔
      listHandler (.val p) (.val s) statusQ = .reject msgPageSize) ∧
    (0 < p → 0 < s → s ≤ 100 → statusQ = [] →
      listHandler (.val p) (.val s) statusQ =
        .store ⟨none, .val s, .val ((p - 1) * s)⟩) ∧
    (0 < s → s ≤ 100 → statusQ = [] →
      listHandler .nan (.val s) statusQ = .store ⟨none, .val s, .nan⟩) := by
  refine ⟨⟨?_, ?_⟩, ?_, ?_⟩
  · intro hcond
    have hg : (jsLe (JSNum.val p) 0 || jsLe (JSNum.val s) 0 ||
        jsGt (JSNum.val s) 100) = true := by
      rcases hcond with h | h | h <;> simp [jsLe, jsGt, h]
    simp [listHandler, hg]
  · intro hres
    by_contra hcond
    push_neg at hcond
    obtain ⟨h1, h2, h3⟩ := hcond
    have hg : (jsLe (JSNum.val p) 0 || jsLe (JSNum.val s) 0 ||
        jsGt (JSNum.val s) 100) = false := by
      simp [jsLe, jsGt]
      omega
    simp only [listHandler, hg, Bool.false_eq_true, if_false] at hres
    split at hres
    · exact absurd (Outcome.reject.inj hres) (by decide)
    · exact Outcome.noConfusion hres
  · intro h1 h2 h3 h4
    subst h4
    have hg : (jsLe (JSNum.val p) 0 || jsLe (JSNum.val s) 0 ||
        jsGt (JSNum.val s) 100) = false := by
      simp [jsLe, jsGt]
      omega
    simp [listHandler, hg, jsSub, jsMul]
  · intro h2 h3 h4
    subst h4
    have hg : (jsLe JSNum.nan 0 || jsLe (JSNum.val s) 0 ||
        jsGt (JSNum.val s) 100) = false := by
      simp [jsLe, jsGt]
      omega
    simp [listHandler, hg, jsSub, jsMul]

/-- Witness for the amended C3: size 101 is rejected, size 100 with page 1
is accepted and reaches the storage queries with OFFSET 0. -/
theorem claimC3_witness :
    listHandler (.val 1) (.val 101) [] = .reject msgPageSize ∧
    listHandler (.val 1) (.val 100) [] = .store ⟨none, .val 100, .val 0⟩ :=
  ⟨(claimC3_pagination_guard 1 101 []).1.mp (Or.inr (Or.inr (by decide))),
   (claimC3_pagination_guard 1 100 []).2.1 (by decide) (by decide)
     (by decide) rfl⟩

/-! ## Claim C5 -/

/-- C5 fails in one corner: for an empty `ids` array the filtered list is
empty, but the handler rejects with "ids required" (the non-empty-array
check fires first), not with the claimed "ids invalid". -/
theorem claimC5_counterexample :
    safeIds [] = [] ∧
    batchDeleteHandler [] = .reject msgIdsRequired ∧
    msgIdsRequired ≠ msgIdsInvalid := by
  refine ⟨rfl, rfl, by decide⟩

/-- C5 amended: an empty (or missing / non-array) `ids` list draws
"ids required"; a non-empty list whose filtered form (coerce each entry,
keep those > 0) is empty draws "ids invalid"; a filtered list longer than
100 draws "Too many IDs in batch operation (max 100)" — each rejection
happens before the DELETE is issued; a filtered list of 1..100 ids reaches
the DELETE, which removes exactly the rows whose id is in the filtered
list. -/
theorem claimC5_batch_guard (ids : List JSNum) (tbl : List Row) :
    (ids = [] → batchDeleteHandler ids = .reject msgIdsRequired) ∧
    (ids ≠ [] → safeIds ids = [] →
      batchDeleteHandler ids = .reject msgIdsInvalid) ∧
    (100 < (safeIds ids).length →
      batchDeleteHandler ids = .reject msgTooManyIds) ∧
    ((safeIds ids).length ≠ 0 → (safeIds ids).length ≤ 100 →
      batchDeleteHandler ids = .store (safeIds ids)) ∧
    (∀ r, r ∈ applyBatchDelete (safeIds ids) tbl ↔
      r ∈ tbl ∧ r.id ∉ safeIds ids) := by
  refine ⟨?_, ?_, ?_, ?_, ?_⟩
  · intro h
    subst h
    rfl
  · intro hne hempty
    have hlen : ids.length ≠ 0 := by
      simpa [List.length_eq_zero] using hne
    simp [batchDeleteHandler, hlen, hempty]
  · intro hbig
    have hidslen : ids.length ≠ 0 := by
      intro h
      have := List.length_filterMap_le (fun n =>
        match n with
        | JSNum.nan => none
        | JSNum.val x => if 0 < x then some x else none) ids
      rw [show (safeIds ids).length =
        (ids.filterMap fun n =>
          match n with
          | JSNum.nan => none
          | JSNum.val x => if 0 < x then some x else none).length from rfl] at hbig
      omega
    have hslen : (safeIds ids).length ≠ 0 := by omega
    simp [batchDeleteHandler, hidslen, hslen]
    omega
  · intro h0 h100
    have hidslen : ids.length ≠ 0 := by
      intro h
      have hnil : ids = [] := List.length_eq_zero.mp h
      rw [hnil] at h0
      exact h0 rfl
    simp [batchDeleteHandler, hidslen, h0]
    omega
  · intro r
    constructor
    · intro hr
      have := List.mem_filter.mp hr
      exact ⟨this.1, of_decide_eq_true this.2⟩
    · intro ⟨h1, h2⟩
      exact List.mem_filter.mpr ⟨h1, decide_eq_true h2⟩

/-- Witness for the amended C5: 101 positive ids are rejected with the cap
message; 100 positive ids reach the DELETE carrying all 100. -/
theorem claimC5_witness :
    batchDeleteHandler (List.replicate 101 (JSNum.val 1))
      = .reject msgTooManyIds ∧
    batchDeleteHandler (List.replicate 100 (JSNum.val 1))
      = .store (List.replicate 100 1) :=
  ⟨(claimC5_batch_guard (List.replicate 101 (JSNum.val 1)) []).2.2.1
      (by decide),
   (claimC5_batch_guard (List.replicate 100 (JSNum.val 1)) []).2.2.2.1
      (by decide) (by decide)⟩

/-! ## Claim C10 -/

/-- C10 fails as stated for arrays: a JSON array is a non-string truthy
value, yet it does have a numeric `.length`, so a 256-element array supplied
as `title` is rejected by `validateTitle` with the too-long message — the
255-character limit *is* applied to this non-string input and create does
not proceed to store it. -/
theorem claimC10_counterexample :
    isStrV bigArr = false ∧
    truthy bigArr = true ∧
    validateTitle bigArr = some msgTitleTooLong ∧
    createHandler xssModel bigArr (.vstr (("body").toList)) .vnull
      = .reject msgTitleTooLong := by
  refine ⟨rfl, rfl, rfl, rfl⟩

/-- C10 amended: for every non-string, non-array truthy value (a JSON
number, `true`, …) supplied as title and content, `sanitizeInput` returns it
unchanged and both validators report it valid — `.length` is `undefined` on
such values, so the 255/50000 limits cannot fire — and create and update
proceed to their INSERT/UPDATE carrying the value; a truthy non-string
*array*, in contrast, has a numeric length and is subject to the limits. -/
theorem claimC10_nonstring_passthrough (xssF : List Char → List Char)
    (v dIn : JSVal) (idv : JSNum)
    (hstr : isStrV v = false) (harr : isArrV v = false)
    (htr : truthy v = true) (hid : validateId idv = none) :
    sanitizeInput xssF v = v ∧
    validateTitle v = none ∧
    validateContent v = none ∧
    createHandler xssF v v dIn = .store ⟨v, v, deltaOf dIn⟩ ∧
    updateHandler xssF idv v v dIn = .store ⟨idOf idv, v, v, deltaOf dIn⟩ := by
  have hsan : sanitizeInput xssF v = v := by
    cases v <;> simp_all [sanitizeInput, isStrV]
  have hlen : lengthProp v = .vundefined := by
    cases v <;> simp_all [lengthProp, isStrV, isArrV]
  have ht : validateTitle v = none := by
    simp [validateTitle, htr, hlen, lengthGt]
  have hc : validateContent v = none := by
    simp [validateContent, htr, hlen, lengthGt]
  refine ⟨hsan, ht, hc, ?_, ?_⟩
  · simp [createHandler, hsan, ht, hc]
  · simp [updateHandler, hid, hsan, ht, hc]

/-- Witness for the amended C10 at the JSON number `12345` and id 2. -/
theorem claimC10_witness :
    sanitizeInput xssModel (.vnum (.val 12345)) = .vnum (.val 12345) ∧
    validateTitle (.vnum (.val 12345)) = none ∧
    validateContent (.vnum (.val 12345)) = none ∧
    createHandler xssModel (.vnum (.val 12345)) (.vnum (.val 12345)) .vnull
      = .store ⟨.vnum (.val 12345), .vnum (.val 12345), none⟩ ∧
    updateHandler xssModel (.val 2) (.vnum (.val 12345)) (.vnum (.val 12345))
      .vnull = .store ⟨2, .vnum (.val 12345), .vnum (.val 12345), none⟩ :=
  claimC10_nonstring_passthrough xssModel (.vnum (.val 12345)) .vnull
    (.val 2) rfl rfl rfl rfl

/-! ## Shared helper lemmas -/

/-- A pointwise map produces a `Forall₂`-related list. -/
theorem forall2_map_self {α : Type} {P : α → α → Prop} {f : α → α}
    (h : ∀ a, P a (f a)) (l : List α) : List.Forall₂ P l (l.map f) := by
  induction l with
  | nil => exact List.Forall₂.nil
  | cons a l ih => exact List.Forall₂.cons (h a) ih

/-- Rows produced by `applyPublish` at the addressed id carry the published
status and the freshly stamped publish time. -/
theorem applyPublish_addressed (tbl : List Row) (id now : Int) :
    ∀ r' ∈ applyPublish id now tbl, r'.id = id →
      r'.status = .published ∧ r'.publish_time = some now := by
  intro r' hr' hid
  obtain ⟨r, hrmem, hfr⟩ := List.mem_map.mp hr'
  by_cases hcase : r.id = id
  · rw [if_pos hcase] at hfr
    rw [← hfr]
    exact ⟨rfl, rfl⟩
  · rw [if_neg hcase] at hfr
    rw [← hfr] at hid
    exact absurd hid hcase

/-! ## Claim C7 -/

/-- C7: publishing sets the addressed row's status to published and its
publish time to the (non-null) statement time; publishing again leaves the
status published while re-stamping the publish time with the later time; and
no operation of the API moves a row's status back from published — update
and publish are status-monotone on every row position, and the two delete
forms only remove rows, so every surviving row keeps its status. -/
theorem claimC7_publish_one_way (tbl : List Row) (id now now2 i : Int)
    (c : UpdateCall) (l : List Int) :
    (∀ r' ∈ applyPublish id now tbl, r'.id = id →
      r'.status = .published ∧ r'.publish_time = some now) ∧
    (∀ r' ∈ applyPublish id now2 (applyPublish id now tbl), r'.id = id →
      r'.status = .published ∧ r'.publish_time = some now2) ∧
    List.Forall₂ (fun a b => a.status = .published → b.status = .published)
      tbl (applyPublish id now tbl) ∧
    List.Forall₂ (fun a b => a.status = .published → b.status = .published)
      tbl (applyUpdate c tbl) ∧
    (∀ r' ∈ applyDeleteOne i tbl, r' ∈ tbl) ∧
    (∀ r' ∈ applyBatchDelete l tbl, r' ∈ tbl) := by
  refine ⟨applyPublish_addressed tbl id now,
    applyPublish_addressed (applyPublish id now tbl) id now2, ?_, ?_, ?_, ?_⟩
  · apply forall2_map_self
    intro a ha
    by_cases hcase : a.id = id
    · rw [if_pos hcase]
    · rw [if_neg hcase]
      exact ha
  · apply forall2_map_self
    intro a ha
    by_cases hcase : a.id = c.id
    · rw [if_pos hcase]
      exact ha
    · rw [if_neg hcase]
      exact ha
  · intro r' hr'
    exact (List.mem_filter.mp hr').1
  · intro r' hr'
    exact (List.mem_filter.mp hr').1

/-- Witness for C7: publishing row 1 of a one-draft table at time 5 yields
the published row with publish time 5. -/
theorem claimC7_witness :
    samplePub ∈ applyPublish 1 5 [sampleDraft] ∧
    samplePub.status = .published ∧ samplePub.publish_time = some 5 :=
  have hmem : samplePub ∈ applyPublish 1 5 [sampleDraft] :=
    List.mem_singleton.mpr rfl
  ⟨hmem,
    (claimC7_publish_one_way [sampleDraft] 1 5 5 1 ⟨1, .vnull, .vnull, none⟩
      []).1 samplePub hmem rfl⟩

/-! ## Claim C8 -/

/-- C8: for a valid id and valid (sanitized) title/content the update handler
reaches its UPDATE statement and the endpoint answers the success envelope
unconditionally — there is no existence check, so a non-matching id yields
the same success with zero rows affected and the table unchanged; the UPDATE
itself rewrites exactly the title, content and content_delta columns of the
addressed row, keeping its id, status, publish time and creation time, and
leaves every other row untouched. -/
theorem claimC8_update_frame (xssF : List Char → List Char) (idv : JSNum)
    (tIn cIn dIn : JSVal) (tbl : List Row)
    (hid : validateId idv = none)
    (ht : validateTitle (sanitizeInput xssF tIn) = none)
    (hc : validateContent (sanitizeInput xssF cIn) = none) :
    updateHandler xssF idv tIn cIn dIn =
      .store ⟨idOf idv, sanitizeInput xssF tIn, sanitizeInput xssF cIn,
        deltaOf dIn⟩ ∧
    updateEndpoint xssF idv tIn cIn dIn = .okRes true ∧
    List.Forall₂ (fun a b =>
      b.id = a.id ∧ b.status = a.status ∧ b.publish_time = a.publish_time ∧
      b.created_at = a.created_at ∧
      (a.id ≠ idOf idv → b = a) ∧
      (a.id = idOf idv → b.title = sanitizeInput xssF tIn ∧
        b.content = sanitizeInput xssF cIn ∧ b.content_delta = deltaOf dIn))
      tbl
      (applyUpdate ⟨idOf idv, sanitizeInput xssF tIn, sanitizeInput xssF cIn,
        deltaOf dIn⟩ tbl) ∧
    ((∀ r ∈ tbl, r.id ≠ idOf idv) →
      applyUpdate ⟨idOf idv, sanitizeInput xssF tIn, sanitizeInput xssF cIn,
        deltaOf dIn⟩ tbl = tbl) := by
  refine ⟨?_, ?_, ?_, ?_⟩
  · simp [updateHandler, hid, ht, hc]
  · simp [updateEndpoint, updateHandler, hid, ht, hc]
  · apply forall2_map_self
    intro a
    by_cases hcase : a.id = idOf idv
    · rw [if_pos hcase]
      exact ⟨rfl, rfl, rfl, rfl, fun hne => absurd hcase hne,
        fun _ => ⟨rfl, rfl, rfl⟩⟩
    · rw [if_neg hcase]
      exact ⟨rfl, rfl, rfl, rfl, fun _ => rfl, fun heq => absurd heq hcase⟩
  · intro hnone
    have : ∀ r ∈ tbl,
        (if r.id = idOf idv then
          { r with title := sanitizeInput xssF tIn,
                   content := sanitizeInput xssF cIn,
                   content_delta := deltaOf dIn }
         else r) = r := by
      intro r hr
      rw [if_neg (hnone r hr)]
    calc applyUpdate _ tbl = tbl.map id := List.map_congr_left this
    _ = tbl := List.map_id tbl

/-- Witness for C8 at id 7 against a table whose only row has id 1: the
handler reaches the UPDATE, the endpoint reports success, and the table is
unchanged. -/
theorem claimC8_witness :
    updateHandler xssModel (.val 7) (.vstr (("t2").toList))
      (.vstr (("c2").toList)) .vnull =
      .store ⟨7, .vstr (("t2").toList), .vstr (("c2").toList), none⟩ ∧
    updateEndpoint xssModel (.val 7) (.vstr (("t2").toList))
      (.vstr (("c2").toList)) .vnull = .okRes true ∧
    applyUpdate ⟨7, .vstr (("t2").toList), .vstr (("c2").toList), none⟩
      [sampleDraft] = [sampleDraft] :=
  have h := claimC8_update_frame xssModel (.val 7) (.vstr (("t2").toList))
    (.vstr (("c2").toList)) .vnull [sampleDraft] rfl rfl rfl
  ⟨h.1, h.2.1, h.2.2.2 (by
    intro r hr
    cases List.mem_singleton.mp hr
    decide)⟩

/-! ## Claim C6 -/

instance : IsTotal Row createdDesc :=
  ⟨fun a b => (le_total b.created_at a.created_at).imp id id⟩

instance : IsTrans Row createdDesc :=
  ⟨fun _ _ _ hab hbc => le_trans hbc hab⟩

/-- C6: for every in-bounds page and size and every legal status filter, the
list endpoint succeeds with exactly the `size`-row window at offset
`(page-1)*size` of the filtered rows sorted by creation time descending, and
with `total` the number of rows matching the same filter without pagination;
the returned page is sorted by creation time descending, has at most `size`
rows, and contains only rows matching the filter. -/
theorem claimC6_list_pagination (tbl : List Row) (p s : Int)
    (statusQ : List Char) (filt : Option Status)
    (hp : 0 < p) (hs : 0 < s) (hs100 : s ≤ 100)
    (hq : (statusQ = [] ∧ filt = none) ∨
      (statusQ = ("draft").toList ∧ filt = some .draft) ∨
      (statusQ = ("published").toList ∧ filt = some .published)) :
    listEndpoint (.val p) (.val s) statusQ tbl =
      .okRes ⟨((sortDesc (filterStatus filt tbl)).drop ((p - 1) * s).toNat).take
          s.toNat,
        (filterStatus filt tbl).length, .val p, .val s⟩ ∧
    List.Sorted createdDesc
      (((sortDesc (filterStatus filt tbl)).drop ((p - 1) * s).toNat).take
        s.toNat) ∧
    (((sortDesc (filterStatus filt tbl)).drop ((p - 1) * s).toNat).take
        s.toNat).length ≤ s.toNat ∧
    (∀ r ∈ ((sortDesc (filterStatus filt tbl)).drop ((p - 1) * s).toNat).take
        s.toNat, r ∈ filterStatus filt tbl) := by
  have hg : (jsLe (JSNum.val p) 0 || jsLe (JSNum.val s) 0 ||
      jsGt (JSNum.val s) 100) = false := by
    simp [jsLe, jsGt]
    omega
  have hhandler : listHandler (.val p) (.val s) statusQ =
      .store ⟨filt, .val s, .val ((p - 1) * s)⟩ := by
    rcases hq with ⟨hst, hf⟩ | ⟨hst, hf⟩ | ⟨hst, hf⟩ <;>
      subst hst <;> subst hf <;>
      simp [listHandler, hg, jsSub, jsMul]
  have hbounds : (0 : Int) ≤ s ∧ (0 : Int) ≤ (p - 1) * s :=
    ⟨le_of_lt hs, mul_nonneg (by omega) (by omega)⟩
  have hexec : execSelect ⟨filt, .val s, .val ((p - 1) * s)⟩ tbl =
      some (((sortDesc (filterStatus filt tbl)).drop
        ((p - 1) * s).toNat).take s.toNat) := by
    simp [execSelect, hbounds.1, hbounds.2]
  refine ⟨?_, ?_, ?_, ?_⟩
  · simp [listEndpoint, hhandler, hexec, execCount]
  · have hsorted : List.Sorted createdDesc (sortDesc (filterStatus filt tbl)) :=
      List.sorted_insertionSort createdDesc (filterStatus filt tbl)
    exact hsorted.sublist
      ((List.take_sublist _ _).trans (List.drop_sublist _ _))
  · exact List.length_take_le _ _
  · intro r hr
    have hmem : r ∈ sortDesc (filterStatus filt tbl) :=
      (List.drop_subset _ _) ((List.take_subset _ _) hr)
    exact (List.perm_insertionSort createdDesc (filterStatus filt tbl)).mem_iff.mp
      hmem

/-- Witness for C6: page 1, size 10, no filter, against a two-row table
listed in ascending creation order: the endpoint returns both rows sorted
descending (latest first) with total 2. -/
theorem claimC6_witness :
    listEndpoint (.val 1) (.val 10) [] [rowT1, rowT2] =
      .okRes ⟨[rowT2, rowT1], 2, .val 1, .val 10⟩ :=
  (claimC6_list_pagination [rowT1, rowT2] 1 10 [] none (by decide) (by decide)
    (by decide) (Or.inl ⟨rfl, rfl⟩)).1

/-! ## Claim C9: helper lemmas on extensions and lower-casing -/

/-- `takeWhile` over a list that satisfies the predicate up to a first
failing element stops exactly there. -/
theorem takeWhile_middle {α : Type} (p : α → Bool) (l₁ : List α) (b : α)
    (l₂ : List α) (h1 : ∀ a ∈ l₁, p a = true) (hb : p b = false) :
    (l₁ ++ b :: l₂).takeWhile p = l₁ := by
  induction l₁ with
  | nil => simp [List.takeWhile_cons, hb]
  | cons a l ih =>
      have ha : p a = true := h1 a (List.mem_cons_self a l)
      simp only [List.cons_append, List.takeWhile_cons, ha, if_true]
      rw [ih (fun x hx => h1 x (List.mem_cons_of_mem a hx))]

/-- `Char.ofNat` on a valid code point round-trips through `Char.toNat`. -/
theorem toNat_ofNat_valid (n : Nat) (h : n.isValidChar) :
    (Char.ofNat n).toNat = n := by
  unfold Char.ofNat
  rw [dif_pos h]
  rfl

/-- ASCII lower-casing is idempotent. -/
theorem lowerChar_idem (c : Char) : lowerChar (lowerChar c) = lowerChar c := by
  unfold lowerChar
  by_cases h : 65 ≤ c.toNat ∧ c.toNat ≤ 90
  · rw [if_pos h]
    have hv : Nat.isValidChar (c.toNat + 32) := Or.inl (by omega)
    have ht : (Char.ofNat (c.toNat + 32)).toNat = c.toNat + 32 :=
      toNat_ofNat_valid _ hv
    rw [ht, if_neg (by omega)]
  · rw [if_neg h, if_neg h]

/-- Lower-casing can only produce a code point below 65 (such as `'.'` or
`'/'`) from that very character. -/
theorem lowerChar_eq_of_lt {c d : Char} (hd : d.toNat < 65) :
    lowerChar c = d ↔ c = d := by
  constructor
  · intro h
    unfold lowerChar at h
    by_cases hc : 65 ≤ c.toNat ∧ c.toNat ≤ 90
    · rw [if_pos hc] at h
      have hv : Nat.isValidChar (c.toNat + 32) := Or.inl (by omega)
      have hnat := congrArg Char.toNat h
      rw [toNat_ofNat_valid _ hv] at hnat
      omega
    · rwa [if_neg hc] at h
  · intro h
    subst h
    unfold lowerChar
    rw [if_neg (by omega)]

/-- Lower-casing a dot-headed extension keeps the dot in front. -/
theorem lowerStr_dot_cons (t : List Char) :
    lowerStr ('.' :: t) = '.' :: lowerStr t := rfl

/-- Lower-casing a whole string is idempotent. -/
theorem lowerStr_idem (s : List Char) : lowerStr (lowerStr s) = lowerStr s := by
  unfold lowerStr
  rw [List.map_map]
  exact List.map_congr_left (fun a _ => lowerChar_idem a)

/-- Lower-casing preserves freedom from dots and slashes. -/
theorem lowerStr_safe {t : List Char} (h : ∀ a ∈ t, a ≠ '.' ∧ a ≠ '/') :
    ∀ a ∈ lowerStr t, a ≠ '.' ∧ a ≠ '/' := by
  intro a ha
  obtain ⟨b, hb, rfl⟩ := List.mem_map.mp ha
  have hbp := h b hb
  refine ⟨?_, ?_⟩
  · intro hc
    exact hbp.1 ((lowerChar_eq_of_lt (by decide)).mp hc)
  · intro hc
    exact hbp.2 ((lowerChar_eq_of_lt (by decide)).mp hc)

/-- The output of `extnameL` is empty or a dot followed by characters that
are neither dots nor slashes. -/
theorem extnameL_shape (p : List Char) :
    extnameL p = [] ∨ ∃ t, extnameL p = '.' :: t ∧
      ∀ a ∈ t, a ≠ '.' ∧ a ≠ '/' := by
  unfold extnameL extAux
  by_cases h1 : ((p.reverse.takeWhile (fun c => decide (c ≠ '/'))).takeWhile
      (fun c => decide (c ≠ '.'))).length =
      (p.reverse.takeWhile (fun c => decide (c ≠ '/'))).length
  · left
    rw [if_pos h1]
  · rw [if_neg h1]
    by_cases h2 : ((p.reverse.takeWhile (fun c => decide (c ≠ '/'))).takeWhile
        (fun c => decide (c ≠ '.'))).length + 1 =
        (p.reverse.takeWhile (fun c => decide (c ≠ '/'))).length
    · left
      rw [if_pos h2]
    · right
      rw [if_neg h2]
      refine ⟨_, rfl, ?_⟩
      intro a ha
      rw [List.mem_reverse] at ha
      refine ⟨of_decide_eq_true
        (@List.mem_takeWhile_imp _ (fun c => decide (c ≠ '.')) _ _ ha), ?_⟩
      have har : a ∈ p.reverse.takeWhile (fun c => decide (c ≠ '/')) :=
        ( List.takeWhile_prefix _).subset ha
      exact of_decide_eq_true
        (@List.mem_takeWhile_imp _ (fun c => decide (c ≠ '/')) _ _ har)

/-- `extAux` on a reversed basename that ends (in original order) in a
dot-separated extension free of further dots returns that extension. -/
theorem extAux_split (t pr : List Char) (hpr : pr ≠ [])
    (htd : ∀ a ∈ t, a ≠ '.') :
    extAux (t.reverse ++ '.' :: pr) = '.' :: t := by
  have hlp : pr.length ≠ 0 := by
    intro h
    exact hpr (List.length_eq_zero.mp h)
  unfold extAux
  have hpre : (t.reverse ++ '.' :: pr).takeWhile (fun c => decide (c ≠ '.'))
      = t.reverse :=
    takeWhile_middle _ _ _ _
      (fun a ha => decide_eq_true (htd a (List.mem_reverse.mp ha)))
      (by decide)
  rw [hpre]
  have hc1 : ¬ (t.reverse.length = (t.reverse ++ '.' :: pr).length) := by
    simp only [List.length_append, List.length_reverse, List.length_cons]
    omega
  have hc2 : ¬ (t.reverse.length + 1 = (t.reverse ++ '.' :: pr).length) := by
    simp only [List.length_append, List.length_reverse, List.length_cons]
    omega
  rw [if_neg hc1, if_neg hc2, List.reverse_reverse]

/-- `path.extname` of a path assembled as safe-prefix ++ dot ++ safe-tail
is exactly the dot-headed tail. -/
theorem extnameL_append (p t : List Char) (hp : p ≠ [])
    (hpd : ∀ a ∈ p, a ≠ '.' ∧ a ≠ '/')
    (htd : ∀ a ∈ t, a ≠ '.' ∧ a ≠ '/') :
    extnameL (p ++ '.' :: t) = '.' :: t := by
  unfold extnameL
  have hrev : (p ++ '.' :: t).reverse = t.reverse ++ '.' :: p.reverse := by
    simp
  rw [hrev]
  have hall : (t.reverse ++ '.' :: p.reverse).takeWhile
      (fun c => decide (c ≠ '/')) = t.reverse ++ '.' :: p.reverse := by
    rw [List.takeWhile_eq_self_iff]
    intro a ha
    apply decide_eq_true
    rcases List.mem_append.mp ha with h | h
    · exact (htd a (List.mem_reverse.mp h)).2
    · rcases List.mem_cons.mp h with h | h
      · subst h
        decide
      · exact (hpd a (List.mem_reverse.mp h)).2
  rw [hall]
  exact extAux_split t p.reverse (by simpa using hp)
    (fun a ha => (htd a ha).1)

/-! ## Claim C9 -/

/-- C9: any upload accepted by the pre-write extension filter generates a
stored filename (timestamp, underscore, hex token, then the lowercased
original extension) whose extension passes the post-write re-check — the
deletion branch of the upload handler is unreachable, so an accepted upload
is never deleted by the handler.  `ts`/`rand` range over the possible
`Date.now()` / hex-token strings: non-empty, and free of dots and
slashes. -/
theorem claimC9_recheck_unreachable (orig ts rand : List Char)
    (hts : ts ≠ [])
    (htsafe : ∀ a ∈ ts, a ≠ '.' ∧ a ≠ '/')
    (hrsafe : ∀ a ∈ rand, a ≠ '.' ∧ a ≠ '/')
    (hacc : fileFilterOk orig = true) :
    recheckOk (storedFilename ts rand orig) = true := by
  rcases extnameL_shape orig with h0 | ⟨t, ht, htp⟩
  · unfold fileFilterOk at hacc
    rw [h0] at hacc
    exact absurd hacc (by decide)
  · have hlow : lowerStr (extnameL orig) = '.' :: lowerStr t := by
      rw [ht, lowerStr_dot_cons]
    have hsafe' : ∀ a ∈ lowerStr t, a ≠ '.' ∧ a ≠ '/' := lowerStr_safe htp
    have hfile : storedFilename ts rand orig =
        (ts ++ '_' :: rand) ++ '.' :: lowerStr t := by
      unfold storedFilename
      rw [hlow]
      simp
    have hext : extnameL (storedFilename ts rand orig) = '.' :: lowerStr t := by
      rw [hfile]
      apply extnameL_append
      · intro h
        rcases List.append_eq_nil.mp h with ⟨h1, _⟩
        exact hts h1
      · intro a ha
        rcases List.mem_append.mp ha with h | h
        · exact htsafe a h
        · rcases List.mem_cons.mp h with h | h
          · subst h
            exact ⟨by decide, by decide⟩
          · exact hrsafe a h
      · exact hsafe'
    unfold recheckOk
    rw [hext, lowerStr_dot_cons, lowerStr_idem]
    unfold fileFilterOk at hacc
    rw [hlow] at hacc
    exact hacc

/-- Witness for C9: the accepted original `a.PNG`, with timestamp string
`17` and token `ab`, stores as `17_ab.png`, which passes the re-check. -/
theorem claimC9_witness :
    recheckOk (storedFilename (("17").toList) (("ab").toList)
      (("a.PNG").toList)) = true :=
  claimC9_recheck_unreachable (("a.PNG").toList) (("17").toList)
    (("ab").toList) (by decide) (by decide) (by decide) (by decide)

end NoticeApi
